import Mathlib

/-!
Verification of the iNaturalist proxy-cache relay (main.ts): the global
rate limiter backed by an atomically updated KV timestamp, the in-memory
response cache with TTL expiry, and the request-handler orchestration.
Timestamps are modelled as integers (milliseconds, JS number arithmetic on
Date.now values) where signed subtraction matters, and as naturals where
the code only compares ages.
-/

namespace Proxy

/-! ### Global rate limiter: acquireLock (main.ts lines 59-80)

`acquireLock` reads the stored timestamp (absent coerced to 0 by the
`|| 0`), rejects when `now - lastRequest < minInterval`, and otherwise
performs a compare-and-swap write of `now` conditioned on the stored
value being unchanged since the read. `casOk` models the outcome of the
KV atomic check: it is true exactly when no concurrent writer changed the
record between the read and the commit, so a call evaluated with
`casOk = true` sees the same stored value at read and commit time. -/

def acquireLock (minInterval now : Int) (stored : Option Int) (casOk : Bool) :
    Bool × Option Int :=
  let lastRequest := stored.getD 0
  if now - lastRequest < minInterval then (false, stored)
  else if casOk then (true, some now) else (false, stored)

/-- Value the code extracts from the KV record: `(result.value as number) || 0`. -/
def lastOf (stored : Option Int) : Int := stored.getD 0

/-- One observable transition of the shared KV record. Failed interval
checks and lost races leave the record unchanged, so the record evolves
exactly by successful acquisitions: some caller, holding a read that the
atomic check certifies is still current, commits its clock value. -/
def RLStep (minInterval : Int) (s s' : Option Int) : Prop :=
  ∃ now : Int, acquireLock minInterval now s true = (true, s')

/-! ### Global rate limiter: execute (main.ts lines 32-57)

`execute` loops `while (retries < maxRetries)`: each iteration makes one
`acquireLock` attempt; on success it runs the action once and propagates
its result or error as-is; on failure it increments `retries`, sleeps
`retryDelay + retries * backoffStep` ms and retries; when the loop
exhausts it throws the rate-limit error. `locks i` is the outcome of the
i-th acquisition attempt (0-indexed); the trace records every sleep. -/

inductive ExecResult (ε α : Type) where
  | ok : α → ExecResult ε α
  | actionError : ε → ExecResult ε α
  | rateLimitExceeded : ExecResult ε α
deriving DecidableEq

structure ExecTrace (ε α : Type) where
  result : ExecResult ε α
  attempts : Nat
  invoked : Nat
  waits : List Nat
deriving DecidableEq

def executeAux (locks : Nat → Bool) (action : Except ε α)
    (retryDelay backoffStep : Nat) : Nat → Nat → ExecTrace ε α
  | _, 0 => ⟨.rateLimitExceeded, 0, 0, []⟩
  | retries, remaining + 1 =>
    if locks retries then
      match action with
      | .ok a => ⟨.ok a, 1, 1, []⟩
      | .error e => ⟨.actionError e, 1, 1, []⟩
    else
      let w := retryDelay + (retries + 1) * backoffStep
      let rest := executeAux locks action retryDelay backoffStep (retries + 1) remaining
      ⟨rest.result, rest.attempts + 1, rest.invoked, w :: rest.waits⟩

def execute (locks : Nat → Bool) (action : Except ε α)
    (maxRetries retryDelay backoffStep : Nat) : ExecTrace ε α :=
  executeAux locks action retryDelay backoffStep 0 maxRetries

/-- How `execute` propagates the result of a granted action: `return await fn()`
on success, `throw error` rethrown unchanged from the catch block. -/
def liftAction (action : Except ε α) : ExecResult ε α :=
  match action with
  | .ok a => .ok a
  | .error e => .actionError e

/-! ### Cache store (main.ts lines 8-15, 103, 139-146, 164-209) -/

/-- 60 days in milliseconds: `60 * 24 * 60 * 60 * 1000`. -/
def CACHE_DURATION : Nat := 60 * 24 * 60 * 60 * 1000

structure CacheEntry where
  data : String
  timestamp : Nat
  contentType : String
deriving DecidableEq

/-- The in-memory `Map` keyed by the upstream URL. -/
def CacheMap : Type := String → Option CacheEntry

def emptyCache : CacheMap := fun _ => none

/-- `cache.set(key, entry)`. -/
def cacheSet (m : CacheMap) (k : String) (e : CacheEntry) : CacheMap :=
  fun k' => if k' = k then some e else m k'

/-- The lookup the handler performs: `cache.get(key)` followed by the
freshness guard `cached && Date.now() - cached.timestamp < CACHE_DURATION`
(main.ts lines 164-165). Ages are naturals: for a positive TTL, truncated
subtraction classifies fresh/stale exactly as JS signed subtraction does. -/
def cacheLookup (m : CacheMap) (k : String) (now : Nat) : Option CacheEntry :=
  match m k with
  | some e => if now - e.timestamp < CACHE_DURATION then some e else none
  | none => none

/-- `cleanExpiredCache` (main.ts lines 139-146): delete every entry with
`now - value.timestamp > CACHE_DURATION`, expressed pointwise. -/
def cleanExpiredCache (m : CacheMap) (now : Nat) : CacheMap :=
  fun k =>
    match m k with
    | some e => if now - e.timestamp > CACHE_DURATION then none else some e
    | none => none

/-! ### Cache key derivation (main.ts lines 151-161)

The key is the full upstream URL: origin, the forwarded path, and
`searchParams.toString()`, which renders the query parameters in their
original order (URLSearchParams never sorts). -/

def renderParam (p : String × String) : String := p.1 ++ "=" ++ p.2

def queryStringOf (ps : List (String × String)) : String :=
  String.intercalate "&" (ps.map renderParam)

def inatUrl (path : String) (ps : List (String × String)) : String :=
  "https://api.inaturalist.org" ++ path ++
    (if ps.isEmpty then "" else "?" ++ queryStringOf ps)

def cacheKey (path : String) (ps : List (String × String)) : String :=
  inatUrl path ps

/-! ### Proxy relay handler for /api/inat/* (main.ts lines 149-230)

The handler derives the cache key, serves a fresh cached entry directly,
and otherwise runs the upstream fetch through the rate limiter. The
outcome of `globalRateLimiter.execute(fetch)` on a miss is modelled by
`MissResult`: acquisition exhausted (fetch never started, KV record
untouched since failed attempts never write), fetch started under a grant
at `grantTime` but the transport rejected, or an upstream response.
Errors all land in the catch block as
`c.json({error: "Proxy Error", message}, 500)`. -/

structure ProxyState where
  cache : CacheMap
  rateLimit : Option Int

inductive MissResult where
  | rateLimited (attempts : Nat)
  | transportFailed (grantTime : Int) (attempts : Nat) (msg : String)
  | fetched (grantTime : Int) (attempts : Nat) (ok : Bool) (status : Nat)
      (statusText : String) (body : String) (contentType : Option String)

structure HandlerOutput where
  status : Nat
  xCache : Option String
  body : String
  contentType : String
  errorMessage : Option String
  state : ProxyState
  upstreamCalls : Nat
  rlAttempts : Nat

/-- Message of the error thrown on acquisition exhaustion (main.ts line 56). -/
def rateLimitMsg : String := "Rate limit: máximo de tentativas excedido"

/-- Message of the error thrown on a non-ok upstream response (main.ts
lines 194-198). -/
def upstreamErrMsg (status : Nat) (statusText : String) : String :=
  "iNaturalist API error: " ++ toString status ++ " " ++ statusText

/-- The `|| "application/json"` defaulting applied both when recording the
upstream content type and when serving a cached one (JS treats the empty
string as falsy). -/
def contentTypeOr (ct : Option String) : String :=
  match ct with
  | none => "application/json"
  | some s => if s = "" then "application/json" else s

def handleInat (st : ProxyState) (key : String) (now : Nat)
    (miss : MissResult) : HandlerOutput :=
  match cacheLookup st.cache key now with
  | some e =>
    { status := 200, xCache := some "HIT", body := e.data
      contentType := contentTypeOr (some e.contentType)
      errorMessage := none, state := st, upstreamCalls := 0, rlAttempts := 0 }
  | none =>
    match miss with
    | .rateLimited attempts =>
      { status := 500, xCache := none, body := ""
        contentType := "application/json"
        errorMessage := some rateLimitMsg
        state := st, upstreamCalls := 0, rlAttempts := attempts }
    | .transportFailed grantTime attempts msg =>
      { status := 500, xCache := none, body := ""
        contentType := "application/json"
        errorMessage := some msg
        state := { st with rateLimit := some grantTime }
        upstreamCalls := 1, rlAttempts := attempts }
    | .fetched grantTime attempts ok status statusText body ct =>
      if ok then
        let ctype := contentTypeOr ct
        { status := 200, xCache := some "MISS", body := body
          contentType := ctype, errorMessage := none
          state := { cache := cacheSet st.cache key ⟨body, now, ctype⟩
                     rateLimit := some grantTime }
          upstreamCalls := 1, rlAttempts := attempts }
      else
        { status := 500, xCache := none, body := ""
          contentType := "application/json"
          errorMessage := some (upstreamErrMsg status statusText)
          state := { st with rateLimit := some grantTime }
          upstreamCalls := 1, rlAttempts := attempts }

/-- Failure of the upstream fetch in the sense of the error-handling spec:
acquisition exhausted, transport error, or non-success upstream status. -/
def MissResult.isFailure : MissResult → Prop
  | .rateLimited _ => True
  | .transportFailed _ _ _ => True
  | .fetched _ _ ok _ _ _ _ => ok = false

instance : DecidablePred MissResult.isFailure := by
  intro m
  cases m <;> simp [MissResult.isFailure] <;> infer_instance

/-! ### Lemmas about the rate limiter store -/

/-- A transition of the KV record happens exactly when some caller commits
its clock value `now` after the interval check passed against the value
it read, which the CAS certifies is still the stored value. -/
lemma RLStep_iff {minInterval : Int} {s s' : Option Int} :
    RLStep minInterval s s' ↔ ∃ now, s' = some now ∧ lastOf s + minInterval ≤ now := by
  constructor
  · rintro ⟨now, h⟩
    simp only [acquireLock] at h
    split at h
    · simp at h
    · next hc =>
      simp only [if_true, Prod.mk.injEq, true_and] at h
      refine ⟨now, h.symm, ?_⟩
      simp only [lastOf]
      omega
  · rintro ⟨now, rfl, hle⟩
    refine ⟨now, ?_⟩
    simp only [acquireLock, lastOf] at *
    rw [if_neg (by omega)]
    simp

lemma RLStep.spaced {minInterval : Int} {s s' : Option Int}
    (h : RLStep minInterval s s') : lastOf s + minInterval ≤ lastOf s' := by
  obtain ⟨now, rfl, hle⟩ := RLStep_iff.mp h
  simpa [lastOf] using hle

lemma RLStep.mono {minInterval : Int} (hmin : 0 ≤ minInterval) {s s' : Option Int}
    (h : RLStep minInterval s s') : lastOf s ≤ lastOf s' := by
  have := h.spaced
  omega

lemma lastOf_mono_of_trace {minInterval : Int} (hmin : 0 ≤ minInterval)
    {s s' : Option Int} (h : Relation.ReflTransGen (RLStep minInterval) s s') :
    lastOf s ≤ lastOf s' := by
  induction h with
  | refl => exact le_refl _
  | tail _ hbc ih => exact le_trans ih (hbc.mono hmin)

/-! ### Lemmas about the execute retry loop -/

lemma executeAux_attempts_le {ε α : Type} (locks : Nat → Bool)
    (action : Except ε α) (rd bs : Nat) : ∀ remaining retries,
    (executeAux locks action rd bs retries remaining).attempts ≤ remaining
  | 0, _ => by simp [executeAux]
  | n + 1, retries => by
    by_cases hl : locks retries
    · simp only [executeAux, hl, if_true]
      cases action <;> simp
    · simp only [executeAux, if_neg hl]
      have := executeAux_attempts_le locks action rd bs n (retries + 1)
      simpa using Nat.succ_le_succ this

lemma executeAux_all_false {ε α : Type} {locks : Nat → Bool} {action : Except ε α}
    {rd bs : Nat} : ∀ remaining retries,
    (∀ i, retries ≤ i → i < retries + remaining → locks i = false) →
    executeAux locks action rd bs retries remaining =
      ⟨.rateLimitExceeded, remaining, 0,
        (List.range remaining).map fun i => rd + (retries + 1 + i) * bs⟩
  | 0, retries, _ => by simp [executeAux]
  | n + 1, retries, h => by
    have hl : ¬ (locks retries = true) := by
      simp [h retries le_rfl (by omega)]
    have ih := @executeAux_all_false ε α locks action rd bs n (retries + 1)
      (fun i h1 h2 => h i (by omega) (by omega))
    simp only [executeAux, if_neg hl, ih]
    have hfun : ∀ i : Nat, rd + (retries + 1 + 1 + i) * bs = rd + (retries + 1 + (i + 1)) * bs := by
      intro i
      ring_nf
    refine congrArg (ExecTrace.mk _ _ _) ?_
    rw [List.range_succ_eq_map, List.map_cons, List.map_map]
    refine List.cons_eq_cons.mpr ⟨by ring_nf, ?_⟩
    refine List.map_congr_left ?_
    intro i _
    simpa [Function.comp] using hfun i

lemma executeAux_success {ε α : Type} {locks : Nat → Bool} {action : Except ε α}
    {rd bs : Nat} : ∀ remaining retries,
    (∃ i, retries ≤ i ∧ i < retries + remaining ∧ locks i = true) →
    (executeAux locks action rd bs retries remaining).invoked = 1 ∧
    (executeAux locks action rd bs retries remaining).result = liftAction action
  | 0, retries, h => by
    obtain ⟨i, h1, h2, _⟩ := h
    omega
  | n + 1, retries, h => by
    by_cases hl : locks retries
    · simp only [executeAux, hl, if_true]
      cases action <;> simp [liftAction]
    · obtain ⟨i, h1, h2, h3⟩ := h
      have hi : retries + 1 ≤ i := by
        rcases Nat.eq_or_lt_of_le h1 with rfl | hlt
        · exact absurd h3 hl
        · omega
      have ih := @executeAux_success ε α locks action rd bs n (retries + 1)
        ⟨i, hi, by omega, h3⟩
      simp only [executeAux, if_neg hl]
      simpa using ih

lemma backoff_sum_two (rd bs : Nat) : ∀ n,
    (((List.range n).map fun r => rd + (r + 1) * bs).sum) * 2 =
      n * rd * 2 + bs * (n * (n + 1))
  | 0 => by simp
  | n + 1 => by
    rw [List.range_succ, List.map_append, List.sum_append, Nat.add_mul,
      backoff_sum_two rd bs n]
    simp only [List.map_cons, List.map_nil, List.sum_cons, List.sum_nil]
    ring

lemma backoff_sum (rd bs n : Nat) :
    ((List.range n).map fun r => rd + (r + 1) * bs).sum =
      n * rd + bs * n * (n + 1) / 2 := by
  have h2 := backoff_sum_two rd bs n
  have he : bs * (n * (n + 1)) % 2 = 0 :=
    Nat.even_iff.mp ((Nat.even_mul_succ_self n).mul_left bs)
  have e : bs * n * (n + 1) = bs * (n * (n + 1)) := by ring
  omega

/-! ### Claim theorems -/

/-- C1: every successful acquisition writes a lastGrantedAt that exceeds
the previously stored value by at least minInterval, so the stored value
is monotonically non-decreasing and, along every interleaved trace of
successful compare-and-swap commits continuing from this grant, every
later grant is at least minInterval above this one. -/
theorem C1_lastGrantedAt_monotone_and_spaced (minInterval : Int)
    (hmin : 0 ≤ minInterval) (s s' : Option Int) (h : RLStep minInterval s s') :
    lastOf s + minInterval ≤ lastOf s' ∧ lastOf s ≤ lastOf s' ∧
    ∀ t u, Relation.ReflTransGen (RLStep minInterval) s' t →
      RLStep minInterval t u → lastOf s' + minInterval ≤ lastOf u := by
  refine ⟨h.spaced, h.mono hmin, ?_⟩
  intro t u ht hu
  have h1 := lastOf_mono_of_trace hmin ht
  have h2 := hu.spaced
  omega

theorem C1_witness :
    (0 : Int) ≤ 1000 ∧ RLStep 1000 none (some 1000) ∧
      (lastOf none + 1000 ≤ lastOf (some 1000) ∧
        lastOf none ≤ lastOf (some 1000) ∧
        ∀ t u, Relation.ReflTransGen (RLStep 1000) (some 1000) t →
          RLStep 1000 t u → lastOf (some 1000) + 1000 ≤ lastOf u) :=
  ⟨by decide, ⟨1000, by decide⟩,
    C1_lastGrantedAt_monotone_and_spaced 1000 (by decide) none (some 1000)
      ⟨1000, by decide⟩⟩

/-- C3: acquisition is attempted at most maxRetries times; if every
attempt fails the loop terminates in the rate-limit error and the action
is never invoked; if some attempt in range succeeds the action is invoked
exactly once and its result or error propagates unchanged. -/
theorem C3_execute_retry_contract {ε α : Type} (locks : Nat → Bool)
    (action : Except ε α) (maxRetries rd bs : Nat) :
    (execute locks action maxRetries rd bs).attempts ≤ maxRetries ∧
    ((∀ i, i < maxRetries → locks i = false) →
      (execute locks action maxRetries rd bs).result = .rateLimitExceeded ∧
      (execute locks action maxRetries rd bs).invoked = 0) ∧
    ((∃ i, i < maxRetries ∧ locks i = true) →
      (execute locks action maxRetries rd bs).invoked = 1 ∧
      (execute locks action maxRetries rd bs).result = liftAction action) := by
  refine ⟨executeAux_attempts_le locks action rd bs maxRetries 0, ?_, ?_⟩
  · intro h
    rw [execute,
      @executeAux_all_false ε α locks action rd bs maxRetries 0
        (fun i _ h2 => h i (by omega))]
    exact ⟨rfl, rfl⟩
  · rintro ⟨i, h1, h2⟩
    exact @executeAux_success ε α locks action rd bs maxRetries 0
      ⟨i, Nat.zero_le i, by omega, h2⟩

theorem C3_witness :
    ((∃ i, i < 30 ∧ (fun _ : Nat => true) i = true) ∧
      (execute (fun _ => true) (Except.ok 7 : Except String Nat) 30 100 50).invoked = 1 ∧
      (execute (fun _ => true) (Except.ok 7 : Except String Nat) 30 100 50).result =
        liftAction (Except.ok 7)) :=
  ⟨⟨0, by decide, rfl⟩,
    (C3_execute_retry_contract (fun _ => true) (Except.ok 7) 30 100 50).2.2
      ⟨0, by decide, rfl⟩⟩

/-- C4: after the r-th unsuccessful attempt (r counted 1-based, after the
increment) the loop sleeps retryDelay + r * backoffStep milliseconds, so
an exhausted run of maxRetries failed attempts sleeps exactly the waits
retryDelay + backoffStep, ..., retryDelay + maxRetries * backoffStep,
whose total is maxRetries * retryDelay + backoffStep * maxRetries *
(maxRetries + 1) / 2. -/
theorem C4_linear_backoff_schedule {ε α : Type} (locks : Nat → Bool)
    (action : Except ε α) (maxRetries rd bs : Nat)
    (h : ∀ i, i < maxRetries → locks i = false) :
    (execute locks action maxRetries rd bs).waits =
      ((List.range maxRetries).map fun r => rd + (r + 1) * bs) ∧
    (execute locks action maxRetries rd bs).waits.sum =
      maxRetries * rd + bs * maxRetries * (maxRetries + 1) / 2 := by
  have hw : (execute locks action maxRetries rd bs).waits =
      ((List.range maxRetries).map fun r => rd + (r + 1) * bs) := by
    rw [execute,
      @executeAux_all_false ε α locks action rd bs maxRetries 0
        (fun i _ h2 => h i (by omega))]
    refine List.map_congr_left ?_
    intro i _
    ring_nf
  refine ⟨hw, ?_⟩
  rw [hw, backoff_sum]

theorem C4_witness :
    (∀ i, i < 30 → (fun _ : Nat => false) i = false) ∧
    ((execute (fun _ => false) (Except.ok 7 : Except String Nat) 30 100 50).waits =
      ((List.range 30).map fun r => 100 + (r + 1) * 50) ∧
    (execute (fun _ => false) (Except.ok 7 : Except String Nat) 30 100 50).waits.sum =
      30 * 100 + 50 * 30 * (30 + 1) / 2) :=
  ⟨fun _ _ => rfl,
    C4_linear_backoff_schedule (fun _ => false) (Except.ok 7) 30 100 50
      (fun _ _ => rfl)⟩

/-- C6: with no recorded timestamp the `|| 0` coercion makes the stored
value epoch zero, so for every clock value at least minInterval past the
epoch (every realistic wall-clock reading) the very first acquisition
attempt passes the interval check and commits, and execute runs the
action on attempt 1 with no backoff wait, propagating its outcome. -/
theorem C6_first_call_grants_immediately {ε α : Type} (minInterval now : Int)
    (hnow : minInterval ≤ now) (maxRetries rd bs : Nat) (hmax : 0 < maxRetries)
    (action : Except ε α) :
    acquireLock minInterval now none true = (true, some now) ∧
    execute (fun _ => (acquireLock minInterval now none true).1) action
        maxRetries rd bs =
      ⟨liftAction action, 1, 1, []⟩ := by
  have hacq : acquireLock minInterval now none true = (true, some now) := by
    simp only [acquireLock, Option.getD]
    rw [if_neg (by omega)]
    simp
  refine ⟨hacq, ?_⟩
  obtain ⟨m, rfl⟩ : ∃ m, maxRetries = m + 1 := ⟨maxRetries - 1, by omega⟩
  rw [execute]
  simp only [executeAux, hacq]
  cases action <;> simp [liftAction]

theorem C6_witness :
    ((1000 : Int) ≤ 1700000000000 ∧ 0 < 30) ∧
    (acquireLock 1000 1700000000000 none true = (true, some 1700000000000) ∧
      execute (fun _ => (acquireLock 1000 1700000000000 none true).1)
          (Except.ok 7 : Except String Nat) 30 100 50 =
        ⟨liftAction (Except.ok 7), 1, 1, []⟩) :=
  ⟨⟨by decide, by decide⟩,
    C6_first_call_grants_immediately 1000 1700000000000 (by decide) 30 100 50
      (by decide) (Except.ok 7)⟩

/-- C5: a put followed by a get within the TTL returns the stored payload
and recorded content type unchanged; once the age reaches the TTL with no
intervening put, the entry is reported absent. -/
theorem C5_cache_roundtrip_and_expiry (m : CacheMap) (k data ct : String)
    (t tGet : Nat) :
    (tGet - t < CACHE_DURATION →
      cacheLookup (cacheSet m k ⟨data, t, ct⟩) k tGet = some ⟨data, t, ct⟩) ∧
    (CACHE_DURATION ≤ tGet - t →
      cacheLookup (cacheSet m k ⟨data, t, ct⟩) k tGet = none) := by
  refine ⟨fun h => ?_, fun h => ?_⟩
  · simp [cacheLookup, cacheSet, h]
  · simp [cacheLookup, cacheSet]
    omega

theorem C5_witness :
    ((1 - 0 < CACHE_DURATION ∧
        cacheLookup (cacheSet emptyCache "k" ⟨"body", 0, "application/json"⟩)
          "k" 1 = some ⟨"body", 0, "application/json"⟩) ∧
      (CACHE_DURATION ≤ (CACHE_DURATION + 3) - 3 ∧
        cacheLookup (cacheSet emptyCache "k2" ⟨"body", 3, "application/json"⟩)
          "k2" (CACHE_DURATION + 3) = none)) :=
  ⟨⟨by decide,
      (C5_cache_roundtrip_and_expiry emptyCache "k" "body" "application/json"
        0 1).1 (by decide)⟩,
    ⟨by simp,
      (C5_cache_roundtrip_and_expiry emptyCache "k2" "body" "application/json"
        3 (CACHE_DURATION + 3)).2 (by simp)⟩⟩

/-- C10: the expiry boundary is asymmetric: the lookup treats an entry as
fresh only when its age is strictly below the TTL, while the sweep deletes
only entries strictly above the TTL, so an entry aged exactly
CACHE_DURATION is already absent to lookups yet retained by the sweep. -/
theorem C10_expiry_boundary_asymmetric (m : CacheMap) (k : String)
    (e : CacheEntry) (now : Nat) (hmk : m k = some e)
    (hage : now - e.timestamp = CACHE_DURATION) :
    cacheLookup m k now = none ∧ cleanExpiredCache m now k = some e := by
  constructor
  · simp only [cacheLookup, hmk]
    rw [if_neg (by omega)]
  · simp only [cleanExpiredCache, hmk]
    rw [if_neg (by omega)]

theorem C10_witness :
    (cacheSet emptyCache "k" ⟨"body", 0, "ct"⟩ "k" = some ⟨"body", 0, "ct"⟩ ∧
      CACHE_DURATION - (0 : Nat) = CACHE_DURATION) ∧
    (cacheLookup (cacheSet emptyCache "k" ⟨"body", 0, "ct"⟩) "k" CACHE_DURATION =
        none ∧
      cleanExpiredCache (cacheSet emptyCache "k" ⟨"body", 0, "ct"⟩)
        CACHE_DURATION "k" = some ⟨"body", 0, "ct"⟩) :=
  ⟨⟨by decide, by simp⟩,
    C10_expiry_boundary_asymmetric (cacheSet emptyCache "k" ⟨"body", 0, "ct"⟩)
      "k" ⟨"body", 0, "ct"⟩ CACHE_DURATION (by decide) (by simp)⟩

/-- C2 counterexample: two parameter lists holding the same names and
values in different orders are a permutation of each other, yet the
derived cache keys differ, and a lookup under the reordered key misses the
entry stored under the original key (the query string preserves the
original parameter order; nothing sorts it). -/
theorem C2_counterexample :
    List.Perm [("a", "1"), ("b", "2")] [("b", "2"), ("a", "1")] ∧
    cacheKey "/v1/taxa" [("a", "1"), ("b", "2")] ≠
      cacheKey "/v1/taxa" [("b", "2"), ("a", "1")] ∧
    cacheLookup
      (cacheSet emptyCache (cacheKey "/v1/taxa" [("a", "1"), ("b", "2")])
        ⟨"payload", 0, "application/json"⟩)
      (cacheKey "/v1/taxa" [("b", "2"), ("a", "1")]) 0 = none :=
  ⟨List.Perm.swap _ _ _, by decide, by decide⟩

/-- C2 amended: the cache key is a deterministic pure function of the path
and the ordered query-parameter list; two requests whose parameters render
to the same query string (in particular, the same parameters in the same
order) derive the same key and the second is a cache hit on the entry
stored by the first, but parameter order is preserved, not normalized, so
permuted orders may derive different keys (see the counterexample). -/
theorem C2_cache_key_of_rendered_query (path : String)
    (ps qs : List (String × String)) (hne : ps.isEmpty = qs.isEmpty)
    (hq : queryStringOf ps = queryStringOf qs) (m : CacheMap) (e : CacheEntry)
    (tGet : Nat) (hfresh : tGet - e.timestamp < CACHE_DURATION) :
    cacheKey path ps = cacheKey path qs ∧
    cacheLookup (cacheSet m (cacheKey path ps) e) (cacheKey path qs) tGet =
      some e := by
  have hkey : cacheKey path ps = cacheKey path qs := by
    simp only [cacheKey, inatUrl, hne, hq]
  refine ⟨hkey, ?_⟩
  rw [hkey]
  simp [cacheLookup, cacheSet, hfresh]

theorem C2_amended_witness :
    (([("a", "1")] : List (String × String)).isEmpty =
        ([("a", "1")] : List (String × String)).isEmpty ∧
      queryStringOf [("a", "1")] = queryStringOf [("a", "1")] ∧
      (1 : Nat) - 0 < CACHE_DURATION) ∧
    (cacheKey "/v1/taxa" [("a", "1")] = cacheKey "/v1/taxa" [("a", "1")] ∧
      cacheLookup
        (cacheSet emptyCache (cacheKey "/v1/taxa" [("a", "1")])
          ⟨"payload", 0, "application/json"⟩)
        (cacheKey "/v1/taxa" [("a", "1")]) 1 =
        some ⟨"payload", 0, "application/json"⟩) :=
  ⟨⟨rfl, rfl, by decide⟩,
    C2_cache_key_of_rendered_query "/v1/taxa" [("a", "1")] [("a", "1")] rfl rfl
      emptyCache ⟨"payload", 0, "application/json"⟩ 1 (by decide)⟩

/-- C7: whenever the upstream fetch fails - acquisition exhausted, the
transport errored, or the upstream returned a non-success status - the
handler leaves the cache exactly as it was, so the next request for the
same key re-runs the full miss flow from the cache check. -/
theorem C7_failure_leaves_cache_unchanged (st : ProxyState) (key : String)
    (now : Nat) (miss : MissResult) (h : miss.isFailure) :
    (handleInat st key now miss).state.cache = st.cache ∧
    cacheLookup (handleInat st key now miss).state.cache key now =
      cacheLookup st.cache key now := by
  have hc : (handleInat st key now miss).state.cache = st.cache := by
    cases hl : cacheLookup st.cache key now with
    | some e => simp [handleInat, hl]
    | none =>
      cases miss with
      | rateLimited a => simp [handleInat, hl]
      | transportFailed g a msg => simp [handleInat, hl]
      | fetched g a ok status stext body ct =>
        have hok : ok = false := h
        subst hok
        simp [handleInat, hl]
  exact ⟨hc, by rw [hc]⟩

theorem C7_witness :
    (MissResult.fetched 0 1 false 503 "Service Unavailable" "" none).isFailure ∧
    ((handleInat ⟨emptyCache, none⟩ "k" 0
        (.fetched 0 1 false 503 "Service Unavailable" "" none)).state.cache =
      (⟨emptyCache, none⟩ : ProxyState).cache ∧
      cacheLookup
        (handleInat ⟨emptyCache, none⟩ "k" 0
          (.fetched 0 1 false 503 "Service Unavailable" "" none)).state.cache
        "k" 0 =
        cacheLookup (⟨emptyCache, none⟩ : ProxyState).cache "k" 0) :=
  ⟨rfl,
    C7_failure_leaves_cache_unchanged ⟨emptyCache, none⟩ "k" 0
      (.fetched 0 1 false 503 "Service Unavailable" "" none) rfl⟩

/-- C8: a fresh cache hit is served without touching the rate limiter or
the upstream: the whole proxy state (cache and shared lastGrantedAt) is
returned unchanged, zero acquisition attempts and zero upstream calls are
made, and the response carries the cached payload with the HIT marker. -/
theorem C8_cache_hit_frame (st : ProxyState) (key : String) (now : Nat)
    (miss : MissResult) (e : CacheEntry)
    (h : cacheLookup st.cache key now = some e) :
    (handleInat st key now miss).state = st ∧
    (handleInat st key now miss).state.rateLimit = st.rateLimit ∧
    (handleInat st key now miss).upstreamCalls = 0 ∧
    (handleInat st key now miss).rlAttempts = 0 ∧
    (handleInat st key now miss).body = e.data ∧
    (handleInat st key now miss).xCache = some "HIT" := by
  simp [handleInat, h]

theorem C8_witness :
    cacheLookup (cacheSet emptyCache "k" ⟨"body", 0, "ct"⟩) "k" 0 =
      some ⟨"body", 0, "ct"⟩ ∧
    ((handleInat ⟨cacheSet emptyCache "k" ⟨"body", 0, "ct"⟩, some 5⟩ "k" 0
        (.rateLimited 0)).state =
      (⟨cacheSet emptyCache "k" ⟨"body", 0, "ct"⟩, some 5⟩ : ProxyState) ∧
      (handleInat ⟨cacheSet emptyCache "k" ⟨"body", 0, "ct"⟩, some 5⟩ "k" 0
        (.rateLimited 0)).state.rateLimit = some 5 ∧
      (handleInat ⟨cacheSet emptyCache "k" ⟨"body", 0, "ct"⟩, some 5⟩ "k" 0
        (.rateLimited 0)).upstreamCalls = 0 ∧
      (handleInat ⟨cacheSet emptyCache "k" ⟨"body", 0, "ct"⟩, some 5⟩ "k" 0
        (.rateLimited 0)).rlAttempts = 0 ∧
      (handleInat ⟨cacheSet emptyCache "k" ⟨"body", 0, "ct"⟩, some 5⟩ "k" 0
        (.rateLimited 0)).body = (⟨"body", 0, "ct"⟩ : CacheEntry).data ∧
      (handleInat ⟨cacheSet emptyCache "k" ⟨"body", 0, "ct"⟩, some 5⟩ "k" 0
        (.rateLimited 0)).xCache = some "HIT") :=
  ⟨by decide,
    C8_cache_hit_frame ⟨cacheSet emptyCache "k" ⟨"body", 0, "ct"⟩, some 5⟩ "k" 0
      (.rateLimited 0) ⟨"body", 0, "ct"⟩ (by decide)⟩

/-- The fixed rate-limit-exhaustion message never coincides with an
upstream-error message, whatever the upstream status and status text. -/
lemma rateLimitMsg_ne_upstreamErrMsg (status : Nat) (stext : String) :
    rateLimitMsg ≠ upstreamErrMsg status stext := by
  intro h
  have h2 : rateLimitMsg.data = (upstreamErrMsg status stext).data := by rw [h]
  simp only [rateLimitMsg, upstreamErrMsg, String.data_append] at h2
  have h3 := congrArg List.head? h2
  simp at h3

/-- C9: a request failing with RateLimitExceeded surfaces the fixed
rate-limit message, makes zero upstream calls, and that message differs
from the message surfaced for every upstream error, so the two failures
are distinguishable by the caller. -/
theorem C9_rate_limit_error_distinct (st : ProxyState) (key : String)
    (now a g att : Nat) (status : Nat) (stext body : String)
    (ct : Option String) (hmiss : cacheLookup st.cache key now = none) :
    (handleInat st key now (.rateLimited a)).errorMessage = some rateLimitMsg ∧
    (handleInat st key now (.rateLimited a)).upstreamCalls = 0 ∧
    (handleInat st key now (.fetched (Int.ofNat g) att false status stext body
        ct)).errorMessage = some (upstreamErrMsg status stext) ∧
    (handleInat st key now (.rateLimited a)).errorMessage ≠
      (handleInat st key now (.fetched (Int.ofNat g) att false status stext body
        ct)).errorMessage := by
  have hne := rateLimitMsg_ne_upstreamErrMsg status stext
  refine ⟨by simp [handleInat, hmiss], by simp [handleInat, hmiss], by
    simp [handleInat, hmiss], ?_⟩
  simp only [handleInat, hmiss]
  simpa using hne

theorem C9_witness :
    cacheLookup (emptyCache) "k" 0 = none ∧
    ((handleInat ⟨emptyCache, none⟩ "k" 0 (.rateLimited 30)).errorMessage =
        some rateLimitMsg ∧
      (handleInat ⟨emptyCache, none⟩ "k" 0 (.rateLimited 30)).upstreamCalls = 0 ∧
      (handleInat ⟨emptyCache, none⟩ "k" 0
        (.fetched (Int.ofNat 0) 1 false 503 "Service Unavailable" "" none)).errorMessage =
        some (upstreamErrMsg 503 "Service Unavailable") ∧
      (handleInat ⟨emptyCache, none⟩ "k" 0 (.rateLimited 30)).errorMessage ≠
        (handleInat ⟨emptyCache, none⟩ "k" 0
          (.fetched (Int.ofNat 0) 1 false 503 "Service Unavailable" ""
            none)).errorMessage) :=
  ⟨rfl,
    C9_rate_limit_error_distinct ⟨emptyCache, none⟩ "k" 0 30 0 1 503
      "Service Unavailable" "" none rfl⟩

end Proxy
